import Mathlib

/-!
Shallow embedding of the `token_balance` ink! contract (`src/lib.rs`).

Accounts are an opaque type `A` with decidable equality.  `Mapping<K, V>`
reads in the contract always supply a default (`unwrap_or(0)` /
`unwrap_or(false)`), so a mapping is modelled as a total function with that
default and `insert` as `Function.update`; this is observationally faithful
because the contract never distinguishes an absent entry from a stored
default value.  `u128` values are modelled as `Nat` with explicit `% 2^128`
where the Rust arithmetic wraps, `checked_add` returning `Option`, and
`saturating_sub` as truncated `Nat` subtraction.

Each message is a function from the pre-state (plus the authenticated
caller and the message arguments) to a pair of the returned
`Result<(), Error>` and the post-state.  An early `return Err(..)` yields
the storage as mutated so far, i.e. writes performed before the erroring
statement stay committed, which is the sequential reading of the source
that the specification itself adopts for `batch_transfer`.
-/

/-- Modulus of the `u128` type, `u128::MAX + 1`. -/
def U128MOD : Nat := 2 ^ 128

/-- Rust `u128::checked_add`: `some` of the sum when it fits in 128 bits, else `none`. -/
def checked_add (a b : Nat) : Option Nat :=
  if a + b < U128MOD then some (a + b) else none

/-- Error type of the contract (`Error` in `src/lib.rs`). -/
inductive TokenError where
  | InsufficientBalance
  | TransferToSelf
  | NotOwner
  | InvalidAmount
deriving DecidableEq, Repr

/-- Storage of the `TokenBalance` contract, over an opaque account type `A`. -/
structure TokenBalance (A : Type) where
  balances : A → Nat
  total_supply : Nat
  owner : A
  allowances : A × A → Nat
  paused : Bool
  blacklisted : A → Bool

namespace TokenBalance

variable {A : Type} [DecidableEq A]

/-- Result-and-post-state of one message call. -/
abbrev MsgResult (A : Type) := Except TokenError Unit × TokenBalance A

/-- The constructor `new`: empty balances and allowances, zero supply,
owner = caller, unpaused, empty blacklist. -/
def new (caller : A) : TokenBalance A :=
  { balances := fun _ => 0
    total_supply := 0
    owner := caller
    allowances := fun _ => 0
    paused := false
    blacklisted := fun _ => false }

/-- Message `mint(to_, amount)`.  Note the source inserts the new balance *before*
checking the supply increment for overflow, so a supply overflow errors
with the balance credit already written. -/
def mint (s : TokenBalance A) (caller to_ : A) (amount : Nat) : MsgResult A :=
  if caller ≠ s.owner then (.error .NotOwner, s)
  else if amount = 0 then (.error .InvalidAmount, s)
  else
    let current_balance := s.balances to_
    match checked_add current_balance amount with
    | none => (.error .InvalidAmount, s)
    | some new_balance =>
      let s1 : TokenBalance A := { s with balances := Function.update s.balances to_ new_balance }
      match checked_add s.total_supply amount with
      | none => (.error .InvalidAmount, s1)
      | some new_supply => (.ok (), { s1 with total_supply := new_supply })

/-- Getter `balance_of(account)`. -/
def balance_of (s : TokenBalance A) (account : A) : Nat :=
  s.balances account

/-- Message `transfer(to_, amount)`. -/
def transfer (s : TokenBalance A) (caller to_ : A) (amount : Nat) : MsgResult A :=
  if s.paused then (.error .InvalidAmount, s)
  else if s.blacklisted caller || s.blacklisted to_ then (.error .InvalidAmount, s)
  else if caller = to_ then (.error .TransferToSelf, s)
  else if amount = 0 then (.error .InvalidAmount, s)
  else
    let caller_balance := s.balances caller
    let to_balance := s.balances to_
    if caller_balance < amount then (.error .InsufficientBalance, s)
    else
      match checked_add to_balance amount with
      | none => (.error .InvalidAmount, s)
      | some new_to_balance =>
        let bal1 := Function.update s.balances caller (caller_balance - amount)
        (.ok (), { s with balances := Function.update bal1 to_ new_to_balance })

/-- Message `burn(amount)`. -/
def burn (s : TokenBalance A) (caller : A) (amount : Nat) : MsgResult A :=
  let caller_balance := s.balances caller
  if amount = 0 then (.error .InvalidAmount, s)
  else if caller_balance < amount then (.error .InsufficientBalance, s)
  else
    (.ok (), { s with
      balances := Function.update s.balances caller (caller_balance - amount)
      total_supply := s.total_supply - amount })

/-- Getter `allowance(owner, spender)`. -/
def allowance (s : TokenBalance A) (o spender : A) : Nat :=
  s.allowances (o, spender)

/-- Message `approve(spender, amount)`. -/
def approve (s : TokenBalance A) (caller spender : A) (amount : Nat) : MsgResult A :=
  (.ok (), { s with allowances := Function.update s.allowances (caller, spender) amount })

/-- Message `transfer_from(from, to, amount)`; `from_` names the Rust `from` argument. -/
def transfer_from (s : TokenBalance A) (caller from_ to_ : A) (amount : Nat) : MsgResult A :=
  let allow := s.allowances (from_, caller)
  if amount = 0 then (.error .InvalidAmount, s)
  else if allow < amount then (.error .InsufficientBalance, s)
  else
    let from_balance := s.balances from_
    if from_balance < amount then (.error .InsufficientBalance, s)
    else
      match checked_add (s.balances to_) amount with
      | none => (.error .InvalidAmount, s)
      | some new_to_balance =>
        let bal1 := Function.update s.balances from_ (from_balance - amount)
        (.ok (), { s with
          balances := Function.update bal1 to_ new_to_balance
          allowances := Function.update s.allowances (from_, caller) (allow - amount) })

/-- Message `pause()`. -/
def pause (s : TokenBalance A) (caller : A) : MsgResult A :=
  if caller ≠ s.owner then (.error .NotOwner, s)
  else (.ok (), { s with paused := true })

/-- Message `unpause()`. -/
def unpause (s : TokenBalance A) (caller : A) : MsgResult A :=
  if caller ≠ s.owner then (.error .NotOwner, s)
  else (.ok (), { s with paused := false })

/-- Getter `is_paused()`. -/
def is_paused (s : TokenBalance A) : Bool :=
  s.paused

/-- Message `blacklist(account)`. -/
def blacklist (s : TokenBalance A) (caller account : A) : MsgResult A :=
  if caller ≠ s.owner then (.error .NotOwner, s)
  else (.ok (), { s with blacklisted := Function.update s.blacklisted account true })

/-- Message `unblacklist(account)`. -/
def unblacklist (s : TokenBalance A) (caller account : A) : MsgResult A :=
  if caller ≠ s.owner then (.error .NotOwner, s)
  else (.ok (), { s with blacklisted := Function.update s.blacklisted account false })

/-- Getter `is_blacklisted(account)`. -/
def is_blacklisted (s : TokenBalance A) (account : A) : Bool :=
  s.blacklisted account

/-- The per-recipient credit loop of `batch_transfer` (the `for (to_, amount)
in recipients` loop): stops at the first self-recipient or overflowing
credit, keeping the credits already written. -/
def creditLoop (s : TokenBalance A) (caller : A) : List (A × Nat) → MsgResult A
  | [] => (.ok (), s)
  | (to_, amount) :: rest =>
    if caller = to_ then (.error .TransferToSelf, s)
    else
      match checked_add (s.balances to_) amount with
      | none => (.error .InvalidAmount, s)
      | some new_to_balance =>
        creditLoop { s with balances := Function.update s.balances to_ new_to_balance } caller rest

/-- The `total_amount` of `batch_transfer`: the Rust `u128` `Sum` of the
amounts, which wraps modulo `2^128` in release builds (no overflow check). -/
def batchTotal (recipients : List (A × Nat)) : Nat :=
  (recipients.map Prod.snd).sum % U128MOD

/-- Message `batch_transfer(recipients)`. -/
def batch_transfer (s : TokenBalance A) (caller : A) (recipients : List (A × Nat)) : MsgResult A :=
  let caller_balance := s.balances caller
  let total_amount := batchTotal recipients
  if caller_balance < total_amount then (.error .InsufficientBalance, s)
  else if recipients.any (fun r => r.2 = 0) then (.error .InvalidAmount, s)
  else
    match creditLoop s caller recipients with
    | (.error e, s1) => (.error e, s1)
    | (.ok _, s1) =>
      (.ok (), { s1 with balances := Function.update s1.balances caller (caller_balance - total_amount) })

/-- Sum of all account balances (accounts range over the finite type `A`). -/
def sumBal [Fintype A] (s : TokenBalance A) : Nat :=
  ∑ a, s.balances a

/-! ### Helper lemmas -/

theorem checked_add_eq_some {a b v : Nat} (h : checked_add a b = some v) :
    v = a + b ∧ a + b < U128MOD := by
  unfold checked_add at h
  split_ifs at h with hlt
  exact ⟨(Option.some.inj h).symm, hlt⟩

theorem checked_add_eq_none {a b : Nat} (h : checked_add a b = none) :
    ¬ a + b < U128MOD := by
  unfold checked_add at h
  split_ifs at h with hlt
  exact hlt

theorem err_ne_ok {e : TokenError} (h : (Except.error e : Except TokenError Unit) = Except.ok ()) :
    False :=
  Except.noConfusion h

omit [DecidableEq A] in
/-- A message returning an error is not the `(ok, _)` pair. -/
theorem errPair_ne_okPair {e : TokenError} {s s1 : TokenBalance A}
    (h : ((Except.error e : Except TokenError Unit), s) = (Except.ok (), s1)) : False :=
  err_ne_ok (congrArg Prod.fst h)

theorem sum_update_add [Fintype A] (f : A → Nat) (a : A) (v : Nat) :
    (∑ x, Function.update f a v x) + f a = (∑ x, f x) + v := by
  classical
  rw [Finset.sum_update_of_mem (Finset.mem_univ a), ← Finset.erase_eq,
    ← Finset.sum_erase_add Finset.univ f (Finset.mem_univ a)]
  omega

omit [DecidableEq A] in
theorem balance_le_sumBal [Fintype A] (s : TokenBalance A) (a : A) :
    s.balances a ≤ sumBal s :=
  Finset.single_le_sum (fun i _ => Nat.zero_le (s.balances i)) (Finset.mem_univ a)

/-- On a successful run, the credit loop leaves the caller's balance alone
(every recipient it credited is distinct from the caller). -/
theorem creditLoop_ok_balc {c : A} : ∀ {l : List (A × Nat)} {s s1 : TokenBalance A},
    creditLoop s c l = (.ok (), s1) → s1.balances c = s.balances c := by
  intro l
  induction l with
  | nil =>
    intro s s1 h
    simp only [creditLoop, Prod.mk.injEq] at h
    rw [← h.2]
  | cons hd tl ih =>
    intro s s1 h
    obtain ⟨t, amt⟩ := hd
    simp only [creditLoop] at h
    split_ifs at h with hct
    · exact (errPair_ne_okPair h).elim
    · rcases hca : checked_add (s.balances t) amt with _ | nb <;> rw [hca] at h
      · exact (errPair_ne_okPair h).elim
      · rw [ih h]
        exact Function.update_noteq hct _ _

/-- The credit loop only writes balances: supply, owner, allowances, pause
flag and blacklist come through untouched, whatever the outcome. -/
theorem creditLoop_fields {c : A} : ∀ {l : List (A × Nat)} {s : TokenBalance A},
    (creditLoop s c l).2.total_supply = s.total_supply ∧
    (creditLoop s c l).2.owner = s.owner ∧
    (creditLoop s c l).2.allowances = s.allowances ∧
    (creditLoop s c l).2.paused = s.paused ∧
    (creditLoop s c l).2.blacklisted = s.blacklisted := by
  intro l
  induction l with
  | nil => intro s; exact ⟨rfl, rfl, rfl, rfl, rfl⟩
  | cons hd tl ih =>
    intro s
    obtain ⟨t, amt⟩ := hd
    simp only [creditLoop]
    split_ifs with hct
    · exact ⟨rfl, rfl, rfl, rfl, rfl⟩
    · rcases hca : checked_add (s.balances t) amt with _ | nb
      · exact ⟨rfl, rfl, rfl, rfl, rfl⟩
      · exact ih

/-- On a successful run, the credit loop adds exactly the listed amounts to
the total of all balances. -/
theorem creditLoop_ok_sum [Fintype A] {c : A} :
    ∀ {l : List (A × Nat)} {s s1 : TokenBalance A},
    creditLoop s c l = (.ok (), s1) →
    sumBal s1 = sumBal s + (l.map Prod.snd).sum := by
  intro l
  induction l with
  | nil =>
    intro s s1 h
    simp only [creditLoop, Prod.mk.injEq] at h
    rw [← h.2]
    simp
  | cons hd tl ih =>
    intro s s1 h
    obtain ⟨t, amt⟩ := hd
    simp only [creditLoop] at h
    split_ifs at h with hct
    · exact (errPair_ne_okPair h).elim
    · rcases hca : checked_add (s.balances t) amt with _ | nb <;> rw [hca] at h
      · exact (errPair_ne_okPair h).elim
      · obtain ⟨hnb, _⟩ := checked_add_eq_some hca
        have hsum := ih h
        have hupd := sum_update_add s.balances t nb
        simp only [sumBal] at *
        simp only [List.map_cons, List.sum_cons]
        omega

/-- Concrete three-account ledger: admin `0` has minted 100 tokens to `1`. -/
def sMint100 : TokenBalance (Fin 3) := (mint (new 0) 0 1 100).2

/-- State `sMint100` after account `1` approved spender `2` for 50. -/
def sApprove50 : TokenBalance (Fin 3) := (approve sMint100 1 2 50).2

/-- The credit loop over an append runs the first list, then the second from
the intermediate state, provided the first part succeeds. -/
theorem creditLoop_append {c : A} :
    ∀ {l1 : List (A × Nat)} {s s1 : TokenBalance A} (l2 : List (A × Nat)),
    creditLoop s c l1 = (.ok (), s1) →
    creditLoop s c (l1 ++ l2) = creditLoop s1 c l2 := by
  intro l1
  induction l1 with
  | nil =>
    intro s s1 l2 h
    simp only [creditLoop, Prod.mk.injEq] at h
    rw [List.nil_append, h.2]
  | cons hd tl ih =>
    intro s s1 l2 h
    obtain ⟨t, amt⟩ := hd
    simp only [creditLoop, List.cons_append] at h ⊢
    split_ifs at h ⊢ with hct
    · exact (errPair_ne_okPair h).elim
    · rcases hca : checked_add (s.balances t) amt with _ | nb <;> simp only [hca] at h ⊢
      · exact (errPair_ne_okPair h).elim
      · exact ih l2 h

/-- The credit loop never reads the pause flag or the blacklist: running it
from a state with those fields replaced gives the same result and the same
effect, with the replaced fields carried through. -/
theorem creditLoop_gates {c : A} (p : Bool) (bl : A → Bool) :
    ∀ {l : List (A × Nat)} {s : TokenBalance A},
    creditLoop { s with paused := p, blacklisted := bl } c l =
      ((creditLoop s c l).1, { (creditLoop s c l).2 with paused := p, blacklisted := bl }) := by
  intro l
  induction l with
  | nil => intro s; rfl
  | cons hd tl ih =>
    intro s
    obtain ⟨t, amt⟩ := hd
    simp only [creditLoop]
    split_ifs with hct
    · rfl
    · rcases hca : checked_add (s.balances t) amt with _ | nb <;> simp only [hca]
      exact ih (s := { s with balances := Function.update s.balances t nb })

/-! ### Supply-vs-sum preservation lemmas -/

/-- Lemma: `mint` preserves `total_supply = sum of balances` provided the call
either succeeds or leaves the state unchanged (the supply-overflow error
path commits the balance credit and breaks the invariant). -/
theorem mint_inv [Fintype A] {s : TokenBalance A} {c t : A} {amt : Nat}
    (hinv : s.total_supply = sumBal s)
    (h : (mint s c t amt).1 = Except.ok () ∨ (mint s c t amt).2 = s) :
    (mint s c t amt).2.total_supply = sumBal (mint s c t amt).2 := by
  rcases h with h | h
  · by_cases h1 : c ≠ s.owner
    · simp only [mint, if_pos h1] at h
      exact (err_ne_ok h).elim
    · by_cases h0 : amt = 0
      · simp only [mint, if_neg h1, if_pos h0] at h
        exact (err_ne_ok h).elim
      · rcases hca : checked_add (s.balances t) amt with _ | nb
        · simp only [mint, if_neg h1, if_neg h0, hca] at h
          exact (err_ne_ok h).elim
        · rcases hcs : checked_add s.total_supply amt with _ | ns
          · simp only [mint, if_neg h1, if_neg h0, hca, hcs] at h
            exact (err_ne_ok h).elim
          · obtain ⟨hnb, _⟩ := checked_add_eq_some hca
            obtain ⟨hns, _⟩ := checked_add_eq_some hcs
            have hpost : (mint s c t amt).2 =
                { s with balances := Function.update s.balances t nb, total_supply := ns } := by
              simp [mint, h1, h0, hca, hcs]
            rw [hpost]
            have hupd := sum_update_add s.balances t nb
            simp only [sumBal] at *
            omega
  · rw [h]
    exact hinv

/-- Lemma: `burn` preserves `total_supply = sum of balances` unconditionally. -/
theorem burn_inv [Fintype A] {s : TokenBalance A} {c : A} {amt : Nat}
    (hinv : s.total_supply = sumBal s) :
    (burn s c amt).2.total_supply = sumBal (burn s c amt).2 := by
  by_cases h0 : amt = 0
  · simpa [burn, h0, sumBal] using hinv
  · by_cases hlt : s.balances c < amt
    · simpa [burn, h0, hlt, sumBal] using hinv
    · have hble := balance_le_sumBal s c
      have hpost : (burn s c amt).2 =
          { s with balances := Function.update s.balances c (s.balances c - amt),
                   total_supply := s.total_supply - amt } := by
        simp [burn, h0, hlt]
      rw [hpost]
      have hupd := sum_update_add s.balances c (s.balances c - amt)
      simp only [sumBal] at *
      omega

/-- Lemma: `transfer` preserves `total_supply = sum of balances` unconditionally. -/
theorem transfer_inv [Fintype A] {s : TokenBalance A} {c t : A} {amt : Nat}
    (hinv : s.total_supply = sumBal s) :
    (transfer s c t amt).2.total_supply = sumBal (transfer s c t amt).2 := by
  by_cases hp : s.paused = true
  · simpa [transfer, hp, sumBal] using hinv
  · simp only [Bool.not_eq_true] at hp
    by_cases hbc : s.blacklisted c = true
    · cases hbt : s.blacklisted t <;> simpa [transfer, hp, hbc, hbt, sumBal] using hinv
    · simp only [Bool.not_eq_true] at hbc
      by_cases hbt : s.blacklisted t = true
      · simpa [transfer, hp, hbc, hbt, sumBal] using hinv
      · simp only [Bool.not_eq_true] at hbt
        by_cases hs : c = t
        · simpa [transfer, hp, hbc, hbt, hs, sumBal] using hinv
        · by_cases h0 : amt = 0
          · simpa [transfer, hp, hbc, hbt, hs, h0, sumBal] using hinv
          · by_cases hlt : s.balances c < amt
            · simpa [transfer, hp, hbc, hbt, hs, h0, hlt, sumBal] using hinv
            · rcases hca : checked_add (s.balances t) amt with _ | nb
              · simpa [transfer, hp, hbc, hbt, hs, h0, hlt, hca, sumBal] using hinv
              · obtain ⟨hnb, _⟩ := checked_add_eq_some hca
                have hble := balance_le_sumBal s c
                have hpost : (transfer s c t amt).2 =
                    { s with balances := Function.update (Function.update s.balances c (s.balances c - amt)) t nb } := by
                  simp [transfer, hp, hbc, hbt, hs, h0, hlt, hca]
                rw [hpost]
                have hupd1 := sum_update_add s.balances c (s.balances c - amt)
                have hupd2 :=
                  sum_update_add (Function.update s.balances c (s.balances c - amt)) t nb
                have hgt : Function.update s.balances c (s.balances c - amt) t = s.balances t :=
                  Function.update_noteq (fun ht => hs ht.symm) _ _
                rw [hgt] at hupd2
                simp only [sumBal] at *
                omega

/-- Lemma: `transfer_from` preserves `total_supply = sum of balances` provided the
source and destination are distinct (a self-targeted success inflates the
sum). -/
theorem transfer_from_inv [Fintype A] {s : TokenBalance A} {c f t : A} {amt : Nat}
    (hinv : s.total_supply = sumBal s) (hft : f ≠ t) :
    (transfer_from s c f t amt).2.total_supply = sumBal (transfer_from s c f t amt).2 := by
  by_cases h0 : amt = 0
  · simpa [transfer_from, h0, sumBal] using hinv
  · by_cases ha : s.allowances (f, c) < amt
    · simpa [transfer_from, h0, ha, sumBal] using hinv
    · by_cases hb : s.balances f < amt
      · simpa [transfer_from, h0, ha, hb, sumBal] using hinv
      · rcases hca : checked_add (s.balances t) amt with _ | nb
        · simpa [transfer_from, h0, ha, hb, hca, sumBal] using hinv
        · obtain ⟨hnb, _⟩ := checked_add_eq_some hca
          have hble := balance_le_sumBal s f
          have hpost : (transfer_from s c f t amt).2 =
              { s with
                balances :=
                  Function.update (Function.update s.balances f (s.balances f - amt)) t nb
                allowances :=
                  Function.update s.allowances (f, c) (s.allowances (f, c) - amt) } := by
            simp [transfer_from, h0, ha, hb, hca]
          rw [hpost]
          have hupd1 := sum_update_add s.balances f (s.balances f - amt)
          have hupd2 :=
            sum_update_add (Function.update s.balances f (s.balances f - amt)) t nb
          have hgt : Function.update s.balances f (s.balances f - amt) t = s.balances t :=
            Function.update_noteq (fun ht => hft ht.symm) _ _
          rw [hgt] at hupd2
          simp only [sumBal] at *
          omega

/-- Lemma: `batch_transfer` preserves `total_supply = sum of balances` provided the
amounts do not overflow the wrapping sum and the call either succeeds or
leaves the state unchanged. -/
theorem batch_transfer_inv [Fintype A] {s : TokenBalance A} {c : A} {l : List (A × Nat)}
    (hinv : s.total_supply = sumBal s)
    (hsum : (l.map Prod.snd).sum < U128MOD)
    (h : (batch_transfer s c l).1 = Except.ok () ∨ (batch_transfer s c l).2 = s) :
    (batch_transfer s c l).2.total_supply = sumBal (batch_transfer s c l).2 := by
  rcases h with h | h
  · by_cases hlt : s.balances c < batchTotal l
    · simp only [batch_transfer, if_pos hlt] at h
      exact (err_ne_ok h).elim
    · by_cases hz : l.any (fun r => r.2 = 0) = true
      · simp only [batch_transfer, if_neg hlt, hz, if_true] at h
        exact (err_ne_ok h).elim
      · rcases hcl : creditLoop s c l with ⟨r, st⟩
        cases r with
        | error e =>
          simp only [batch_transfer, if_neg hlt, hz, hcl] at h
          exact (err_ne_ok h).elim
        | ok u =>
          cases u
          have hS := creditLoop_ok_sum hcl
          have hbc := creditLoop_ok_balc hcl
          have hsup := (creditLoop_fields (c := c) (l := l) (s := s)).1
          rw [hcl] at hsup
          have htot : batchTotal l = (l.map Prod.snd).sum := Nat.mod_eq_of_lt hsum
          have hpost : (batch_transfer s c l).2 =
              { st with balances :=
                  Function.update st.balances c (s.balances c - batchTotal l) } := by
            simp [batch_transfer, hlt, hz, hcl]
          rw [hpost]
          have hupd := sum_update_add st.balances c (s.balances c - batchTotal l)
          simp only [sumBal] at *
          omega
  · rw [h]
    exact hinv

/-- Lemma: `approve` preserves `total_supply = sum of balances`. -/
theorem approve_inv [Fintype A] {s : TokenBalance A} {c sp : A} {amt : Nat}
    (hinv : s.total_supply = sumBal s) :
    (approve s c sp amt).2.total_supply = sumBal (approve s c sp amt).2 := by
  simpa [approve, sumBal] using hinv

/-- Lemma: `pause` preserves `total_supply = sum of balances`. -/
theorem pause_inv [Fintype A] {s : TokenBalance A} {c : A}
    (hinv : s.total_supply = sumBal s) :
    (pause s c).2.total_supply = sumBal (pause s c).2 := by
  by_cases h1 : c ≠ s.owner <;> simpa [pause, h1, sumBal] using hinv

/-- Lemma: `unpause` preserves `total_supply = sum of balances`. -/
theorem unpause_inv [Fintype A] {s : TokenBalance A} {c : A}
    (hinv : s.total_supply = sumBal s) :
    (unpause s c).2.total_supply = sumBal (unpause s c).2 := by
  by_cases h1 : c ≠ s.owner <;> simpa [unpause, h1, sumBal] using hinv

/-- Lemma: `blacklist` preserves `total_supply = sum of balances`. -/
theorem blacklist_inv [Fintype A] {s : TokenBalance A} {c a : A}
    (hinv : s.total_supply = sumBal s) :
    (blacklist s c a).2.total_supply = sumBal (blacklist s c a).2 := by
  by_cases h1 : c ≠ s.owner <;> simpa [blacklist, h1, sumBal] using hinv

/-- Lemma: `unblacklist` preserves `total_supply = sum of balances`. -/
theorem unblacklist_inv [Fintype A] {s : TokenBalance A} {c a : A}
    (hinv : s.total_supply = sumBal s) :
    (unblacklist s c a).2.total_supply = sumBal (unblacklist s c a).2 := by
  by_cases h1 : c ≠ s.owner <;> simpa [unblacklist, h1, sumBal] using hinv

/-! ### Reachability -/

/-- States reachable from a freshly constructed ledger by arbitrary
sequences of the ten public messages (failing calls included: they leave
behind whatever state the message produced). -/
inductive Reachable : TokenBalance A → Prop where
  | init (admin : A) : Reachable (new admin)
  | step_mint {s : TokenBalance A} (c t : A) (amt : Nat) :
      Reachable s → Reachable (mint s c t amt).2
  | step_burn {s : TokenBalance A} (c : A) (amt : Nat) :
      Reachable s → Reachable (burn s c amt).2
  | step_transfer {s : TokenBalance A} (c t : A) (amt : Nat) :
      Reachable s → Reachable (transfer s c t amt).2
  | step_transfer_from {s : TokenBalance A} (c f t : A) (amt : Nat) :
      Reachable s → Reachable (transfer_from s c f t amt).2
  | step_approve {s : TokenBalance A} (c sp : A) (amt : Nat) :
      Reachable s → Reachable (approve s c sp amt).2
  | step_pause {s : TokenBalance A} (c : A) :
      Reachable s → Reachable (pause s c).2
  | step_unpause {s : TokenBalance A} (c : A) :
      Reachable s → Reachable (unpause s c).2
  | step_blacklist {s : TokenBalance A} (c a : A) :
      Reachable s → Reachable (blacklist s c a).2
  | step_unblacklist {s : TokenBalance A} (c a : A) :
      Reachable s → Reachable (unblacklist s c a).2
  | step_batch {s : TokenBalance A} (c : A) (l : List (A × Nat)) :
      Reachable s → Reachable (batch_transfer s c l).2

/-- Reachability restricted to the calls under which the supply invariant
can survive: every `transfer_from` has distinct source and destination,
every `mint` either succeeds or leaves the state unchanged, and every
`batch_transfer` has a non-overflowing amount sum and either succeeds or
leaves the state unchanged. -/
inductive ReachableTame : TokenBalance A → Prop where
  | init (admin : A) : ReachableTame (new admin)
  | step_mint {s : TokenBalance A} (c t : A) (amt : Nat) :
      ReachableTame s →
      ((mint s c t amt).1 = Except.ok () ∨ (mint s c t amt).2 = s) →
      ReachableTame (mint s c t amt).2
  | step_burn {s : TokenBalance A} (c : A) (amt : Nat) :
      ReachableTame s → ReachableTame (burn s c amt).2
  | step_transfer {s : TokenBalance A} (c t : A) (amt : Nat) :
      ReachableTame s → ReachableTame (transfer s c t amt).2
  | step_transfer_from {s : TokenBalance A} (c f t : A) (amt : Nat) :
      ReachableTame s → f ≠ t → ReachableTame (transfer_from s c f t amt).2
  | step_approve {s : TokenBalance A} (c sp : A) (amt : Nat) :
      ReachableTame s → ReachableTame (approve s c sp amt).2
  | step_pause {s : TokenBalance A} (c : A) :
      ReachableTame s → ReachableTame (pause s c).2
  | step_unpause {s : TokenBalance A} (c : A) :
      ReachableTame s → ReachableTame (unpause s c).2
  | step_blacklist {s : TokenBalance A} (c a : A) :
      ReachableTame s → ReachableTame (blacklist s c a).2
  | step_unblacklist {s : TokenBalance A} (c a : A) :
      ReachableTame s → ReachableTame (unblacklist s c a).2
  | step_batch {s : TokenBalance A} (c : A) (l : List (A × Nat)) :
      ReachableTame s → (l.map Prod.snd).sum < U128MOD →
      ((batch_transfer s c l).1 = Except.ok () ∨ (batch_transfer s c l).2 = s) →
      ReachableTame (batch_transfer s c l).2

/-! ### Claim theorems -/

/-- State reached from the fresh three-account ledger by: admin `0` mints
100 to `1`, `1` approves spender `2` for 50, and `2` calls
`transfer_from(1, 1, 30)` — a successful self-targeted spend. -/
def c1Bad : TokenBalance (Fin 3) := (transfer_from sApprove50 2 1 1 30).2

/-- C1 counterexample: `c1Bad` is reachable from the fresh ledger by public
operations alone, yet its stored `total_supply` is 100 while the account
balances sum to 130 — the self-targeted `transfer_from` inflated the sum
without touching the supply. -/
theorem supply_eq_sum_counterexample :
    Reachable c1Bad ∧ c1Bad.total_supply = 100 ∧ sumBal c1Bad = 130 ∧
    c1Bad.total_supply ≠ sumBal c1Bad := by
  refine ⟨?_, rfl, by decide, by decide⟩
  exact Reachable.step_transfer_from 2 1 1 30
    (Reachable.step_approve 1 2 50 (Reachable.step_mint 0 1 100 (Reachable.init 0)))

/-- C1 amended: `total_supply` equals the sum of all balances in every state
reachable from the fresh ledger when every `transfer_from` call has
`from ≠ to`, every `mint` call either succeeds or leaves the state
unchanged, and every `batch_transfer` call has a recipient-amount sum below
`2^128` and either succeeds or leaves the state unchanged.  (The excluded
calls — self-targeted `transfer_from`, the supply-overflow `mint` error
path, and wrapping or mid-loop-failing `batch_transfer` — each break the
equality, as the counterexample shows for the first.) -/
theorem supply_eq_sumBal_of_tame [Fintype A] {s : TokenBalance A} (h : ReachableTame s) :
    s.total_supply = sumBal s := by
  induction h with
  | init admin => simp [new, sumBal]
  | step_mint c t amt hr hcond ih => exact mint_inv ih hcond
  | step_burn c amt hr ih => exact burn_inv ih
  | step_transfer c t amt hr ih => exact transfer_inv ih
  | step_transfer_from c f t amt hr hft ih => exact transfer_from_inv ih hft
  | step_approve c sp amt hr ih => exact approve_inv ih
  | step_pause c hr ih => exact pause_inv ih
  | step_unpause c hr ih => exact unpause_inv ih
  | step_blacklist c a hr ih => exact blacklist_inv ih
  | step_unblacklist c a hr ih => exact unblacklist_inv ih
  | step_batch c l hr hsum hcond ih => exact batch_transfer_inv ih hsum hcond

/-- Witness for the C1 amendment at the state reached by one successful
mint of 100 on a two-account ledger. -/
theorem supply_eq_sumBal_of_tame_witness :
    ((mint (new (0 : Fin 2)) 0 1 100).2).total_supply =
      sumBal ((mint (new (0 : Fin 2)) 0 1 100).2) :=
  supply_eq_sumBal_of_tame
    (ReachableTame.step_mint 0 1 100 (ReachableTame.init 0) (Or.inl rfl))

/-- C8: `approve(spender, N)` by caller `C` always succeeds for every amount
`N`, and afterwards `allowance(C, spender)` returns exactly `N` regardless of
the previously stored allowance (overwrite, no accumulation); the rest of the
state — balances, supply, pause flag, blacklist, and every other allowance
entry — is unchanged, as the post-state is exactly the pre-state with the one
allowance entry overwritten. -/
theorem approve_overwrite_spec (s : TokenBalance A) (c spender : A) (n : Nat) :
    (approve s c spender n).1 = Except.ok () ∧
    allowance (approve s c spender n).2 c spender = n ∧
    (approve s c spender n).2 =
      { s with allowances := Function.update s.allowances (c, spender) n } := by
  refine ⟨rfl, ?_, rfl⟩
  simp [approve, allowance]

/-- C9: for the admin caller, `unpause` twice leaves the state identical to
`unpause` once, and `blacklist(x)` twice leaves the state identical to
`blacklist(x)` once. -/
theorem unpause_blacklist_idempotent (s : TokenBalance A) (c x : A) (h : c = s.owner) :
    (unpause (unpause s c).2 c).2 = (unpause s c).2 ∧
    (blacklist (blacklist s c x).2 c x).2 = (blacklist s c x).2 := by
  subst h
  constructor
  · simp [unpause]
  · simp [blacklist, Function.update_idem]

/-- Witness for C9 at the fresh one-account ledger. -/
theorem unpause_blacklist_idempotent_witness :
    (unpause (unpause (new (0 : Fin 1)) 0).2 0).2 = (unpause (new (0 : Fin 1)) 0).2 ∧
    (blacklist (blacklist (new (0 : Fin 1)) 0 0).2 0 0).2 = (blacklist (new (0 : Fin 1)) 0 0).2 :=
  unpause_blacklist_idempotent (new 0) 0 0 rfl

/-- C10: `batch_transfer` sums the amounts with wrap-around `u128` arithmetic
and no overflow check: for the list `[(1, 2^128 - 1), (2, 1)]` the
mathematical sum is `2^128` but the wrapped total is `0`, so a caller with
balance `0` passes the sufficiency check, every recipient is credited its
full stated amount, and the caller is debited only the wrapped total `0`. -/
theorem batch_transfer_wrapped_total :
    ((List.map Prod.snd [((1 : Fin 3), 2 ^ 128 - 1), (2, 1)]).sum = 2 ^ 128) ∧
    batchTotal [((1 : Fin 3), 2 ^ 128 - 1), (2, 1)] = 0 ∧
    (batch_transfer (new (0 : Fin 3)) 0 [(1, 2 ^ 128 - 1), (2, 1)]).1 = Except.ok () ∧
    (batch_transfer (new (0 : Fin 3)) 0 [(1, 2 ^ 128 - 1), (2, 1)]).2.balances 1 = 2 ^ 128 - 1 ∧
    (batch_transfer (new (0 : Fin 3)) 0 [(1, 2 ^ 128 - 1), (2, 1)]).2.balances 2 = 1 ∧
    (batch_transfer (new (0 : Fin 3)) 0 [(1, 2 ^ 128 - 1), (2, 1)]).2.balances 0 = 0 := by
  refine ⟨by decide, by decide, rfl, by decide, by decide, by decide⟩

/-- C3: `transfer` evaluates its rejection checks in exactly the source
order — (1) pause or blacklist (`InvalidAmount`), (2) self-transfer
(`TransferToSelf`), (3) zero amount (`InvalidAmount`), (4) insufficient
balance (`InsufficientBalance`), (5) credit overflow (`InvalidAmount`) —
returning the error of the earliest failing check, with the state unchanged
on every error. -/
theorem transfer_check_order (s : TokenBalance A) (c to_ : A) (amount : Nat) :
    (s.paused = true ∨ s.blacklisted c = true ∨ s.blacklisted to_ = true →
      transfer s c to_ amount = (Except.error TokenError.InvalidAmount, s)) ∧
    (s.paused = false → s.blacklisted c = false → s.blacklisted to_ = false →
      (c = to_ → transfer s c to_ amount = (Except.error TokenError.TransferToSelf, s)) ∧
      (c ≠ to_ → amount = 0 →
        transfer s c to_ amount = (Except.error TokenError.InvalidAmount, s)) ∧
      (c ≠ to_ → amount ≠ 0 → s.balances c < amount →
        transfer s c to_ amount = (Except.error TokenError.InsufficientBalance, s)) ∧
      (c ≠ to_ → amount ≠ 0 → ¬ s.balances c < amount →
        ¬ s.balances to_ + amount < U128MOD →
        transfer s c to_ amount = (Except.error TokenError.InvalidAmount, s))) := by
  refine ⟨?_, fun hp hbc hbt => ⟨fun hself => ?_, fun hne h0 => ?_,
    fun hne h0 hlt => ?_, fun hne h0 hge hov => ?_⟩⟩
  · rintro (h | h | h)
    · simp [transfer, h]
    · cases hsp : s.paused <;> simp [transfer, h, hsp]
    · cases hsp : s.paused <;> simp [transfer, h, hsp]
  · simp [transfer, hp, hbc, hbt, hself]
  · simp [transfer, hp, hbc, hbt, hne, h0]
  · simp [transfer, hp, hbc, hbt, hne, h0, hlt]
  · simp [transfer, checked_add, hp, hbc, hbt, hne, h0, hge, hov]

/-- Witness for C3: a paused self-transfer of zero returns `InvalidAmount`
(the pause branch fires first), while an unpaused, unblacklisted
self-transfer of zero returns `TransferToSelf`. -/
theorem transfer_check_order_witness :
    transfer (pause (new (0 : Fin 1)) 0).2 0 0 0 =
      (Except.error TokenError.InvalidAmount, (pause (new (0 : Fin 1)) 0).2) ∧
    transfer (new (0 : Fin 1)) 0 0 0 = (Except.error TokenError.TransferToSelf, new (0 : Fin 1)) :=
  ⟨(transfer_check_order (pause (new (0 : Fin 1)) 0).2 0 0 0).1 (Or.inl rfl),
   ((transfer_check_order (new (0 : Fin 1)) 0 0 0).2 rfl rfl rfl).1 rfl⟩

/-- C7: `transfer_from` between distinct accounts: zero amount fails with
`InvalidAmount`; an amount exceeding the stored allowance or the source
balance fails with `InsufficientBalance` and no state change; otherwise,
absent credit overflow, it succeeds, decrements the allowance by the amount,
debits `from` and credits `to` by the amount. -/
theorem transfer_from_distinct_spec (s : TokenBalance A) (c from_ to_ : A) (amount : Nat)
    (hne : from_ ≠ to_) :
    (amount = 0 →
      transfer_from s c from_ to_ amount = (Except.error TokenError.InvalidAmount, s)) ∧
    (amount ≠ 0 → (s.allowances (from_, c) < amount ∨ s.balances from_ < amount) →
      transfer_from s c from_ to_ amount = (Except.error TokenError.InsufficientBalance, s)) ∧
    (amount ≠ 0 → amount ≤ s.allowances (from_, c) → amount ≤ s.balances from_ →
      s.balances to_ + amount < U128MOD →
      (transfer_from s c from_ to_ amount).1 = Except.ok () ∧
      (transfer_from s c from_ to_ amount).2.allowances (from_, c) =
        s.allowances (from_, c) - amount ∧
      (transfer_from s c from_ to_ amount).2.balances from_ = s.balances from_ - amount ∧
      (transfer_from s c from_ to_ amount).2.balances to_ = s.balances to_ + amount) := by
  refine ⟨fun h0 => ?_, fun h0 hlt => ?_, fun h0 ha hb hov => ?_⟩
  · simp [transfer_from, h0]
  · rcases hlt with hlt | hlt
    · simp [transfer_from, h0, hlt]
    · rcases Nat.lt_or_ge (s.allowances (from_, c)) amount with ha | ha
      · simp [transfer_from, h0, ha]
      · simp [transfer_from, h0, Nat.not_lt.mpr ha, hlt]
  · have h1 := Nat.not_lt.mpr ha
    have h2 := Nat.not_lt.mpr hb
    simp [transfer_from, checked_add, h0, h1, h2, hov, hne, Function.update_noteq hne]

/-- Witness for C7, tracing Scenario E on a four-account ledger: admin `0`
mints 100 to `1`, `1` approves spender `3` for 50; `3` moves 30 from `1` to
`2` successfully leaving allowance 20, and a second spend of 30 fails with
`InsufficientBalance`. -/
theorem transfer_from_distinct_spec_witness :
    ((transfer_from (approve (mint (new (0 : Fin 4)) 0 1 100).2 1 3 50).2 3 1 2 30).1 =
      Except.ok ()) ∧
    ((transfer_from (approve (mint (new (0 : Fin 4)) 0 1 100).2 1 3 50).2 3 1 2 30).2.allowances
      (1, 3) = 20) ∧
    (transfer_from
      (transfer_from (approve (mint (new (0 : Fin 4)) 0 1 100).2 1 3 50).2 3 1 2 30).2
      3 1 2 30 =
      (Except.error TokenError.InsufficientBalance,
       (transfer_from (approve (mint (new (0 : Fin 4)) 0 1 100).2 1 3 50).2 3 1 2 30).2)) := by
  have h1 := (transfer_from_distinct_spec
    (approve (mint (new (0 : Fin 4)) 0 1 100).2 1 3 50).2 3 1 2 30 (by decide)).2.2
    (by decide) (by decide) (by decide) (by decide)
  have h2 := ((transfer_from_distinct_spec
    (transfer_from (approve (mint (new (0 : Fin 4)) 0 1 100).2 1 3 50).2 3 1 2 30).2
    3 1 2 30 (by decide)).2.1 (by decide) (Or.inl (by decide)))
  refine ⟨h1.1, ?_, h2⟩
  rw [h1.2.1]
  decide

/-- Pre-state for the C2 counterexample: the admin has minted `u128::MAX`
tokens to itself, so the supply is one short of overflowing. -/
def c2Pre : TokenBalance (Fin 2) := (mint (new 0) 0 0 (2 ^ 128 - 1)).2

/-- C2 counterexample: `mint(1, 1)` on `c2Pre` fails with `InvalidAmount`
(supply overflow), yet the recipient's balance credit is committed — the
post-state differs from the pre-state, so mint is not all-or-nothing. -/
theorem mint_not_atomic_counterexample :
    (mint c2Pre 0 1 1).1 = Except.error TokenError.InvalidAmount ∧
    c2Pre.balances 1 = 0 ∧
    (mint c2Pre 0 1 1).2.balances 1 = 1 ∧
    (mint c2Pre 0 1 1).2 ≠ c2Pre := by
  refine ⟨rfl, by decide, by decide, fun h => ?_⟩
  exact absurd (congrArg (fun st => st.balances 1) h) (by decide)

/-- C2 amended: every operation other than `batch_transfer` and `mint` is
atomic — an error implies the post-state equals the pre-state; `mint` is
atomic on every error path except the supply-overflow one, where the error
is returned with the recipient's balance credit already committed while
`total_supply` stays unchanged. -/
theorem ops_atomic_on_error (s : TokenBalance A) :
    (∀ c amt, (burn s c amt).1.isOk = false → (burn s c amt).2 = s) ∧
    (∀ c t amt, (transfer s c t amt).1.isOk = false → (transfer s c t amt).2 = s) ∧
    (∀ c f t amt,
      (transfer_from s c f t amt).1.isOk = false → (transfer_from s c f t amt).2 = s) ∧
    (∀ c sp amt, (approve s c sp amt).1.isOk = false → (approve s c sp amt).2 = s) ∧
    (∀ c, (pause s c).1.isOk = false → (pause s c).2 = s) ∧
    (∀ c, (unpause s c).1.isOk = false → (unpause s c).2 = s) ∧
    (∀ c a, (blacklist s c a).1.isOk = false → (blacklist s c a).2 = s) ∧
    (∀ c a, (unblacklist s c a).1.isOk = false → (unblacklist s c a).2 = s) ∧
    (∀ c t amt, (mint s c t amt).1.isOk = false →
      (mint s c t amt).2 = s ∨
      (checked_add s.total_supply amt = none ∧
       (mint s c t amt).2 =
         { s with balances := Function.update s.balances t (s.balances t + amt) } ∧
       (mint s c t amt).2.total_supply = s.total_supply)) := by
  refine ⟨fun c amt h => ?_, fun c t amt h => ?_, fun c f t amt h => ?_, fun c sp amt h => ?_,
    fun c h => ?_, fun c h => ?_, fun c a h => ?_, fun c a h => ?_, fun c t amt h => ?_⟩
  · by_cases h0 : amt = 0
    · simp [burn, h0]
    · by_cases hlt : s.balances c < amt
      · simp [burn, h0, hlt]
      · exfalso; simp [burn, h0, hlt, Except.isOk, Except.toBool] at h
  · by_cases hp : s.paused = true
    · simp [transfer, hp]
    · simp only [Bool.not_eq_true] at hp
      by_cases hbc : s.blacklisted c = true
      · cases hbt : s.blacklisted t <;> simp [transfer, hp, hbc, hbt]
      · simp only [Bool.not_eq_true] at hbc
        by_cases hbt : s.blacklisted t = true
        · simp [transfer, hp, hbc, hbt]
        · simp only [Bool.not_eq_true] at hbt
          by_cases hs : c = t
          · simp [transfer, hp, hbc, hbt, hs]
          · by_cases h0 : amt = 0
            · simp [transfer, hp, hbc, hbt, hs, h0]
            · by_cases hlt : s.balances c < amt
              · simp [transfer, hp, hbc, hbt, hs, h0, hlt]
              · rcases hca : checked_add (s.balances t) amt with _ | nb
                · simp [transfer, hp, hbc, hbt, hs, h0, hlt, hca]
                · exfalso
                  simp [transfer, hp, hbc, hbt, hs, h0, hlt, hca,
                    Except.isOk, Except.toBool] at h
  · by_cases h0 : amt = 0
    · simp [transfer_from, h0]
    · by_cases ha : s.allowances (f, c) < amt
      · simp [transfer_from, h0, ha]
      · by_cases hb : s.balances f < amt
        · simp [transfer_from, h0, ha, hb]
        · rcases hca : checked_add (s.balances t) amt with _ | nb
          · simp [transfer_from, h0, ha, hb, hca]
          · exfalso
            simp [transfer_from, h0, ha, hb, hca, Except.isOk, Except.toBool] at h
  · exfalso; simp [approve, Except.isOk, Except.toBool] at h
  · by_cases h1 : c ≠ s.owner
    · simp [pause, h1]
    · exfalso; simp [pause, h1, Except.isOk, Except.toBool] at h
  · by_cases h1 : c ≠ s.owner
    · simp [unpause, h1]
    · exfalso; simp [unpause, h1, Except.isOk, Except.toBool] at h
  · by_cases h1 : c ≠ s.owner
    · simp [blacklist, h1]
    · exfalso; simp [blacklist, h1, Except.isOk, Except.toBool] at h
  · by_cases h1 : c ≠ s.owner
    · simp [unblacklist, h1]
    · exfalso; simp [unblacklist, h1, Except.isOk, Except.toBool] at h
  · by_cases h1 : c ≠ s.owner
    · left; simp [mint, h1]
    · by_cases h0 : amt = 0
      · left; simp [mint, h1, h0]
      · rcases hca : checked_add (s.balances t) amt with _ | nb
        · left; simp [mint, h1, h0, hca]
        · rcases hcs : checked_add s.total_supply amt with _ | ns
          · right
            refine ⟨rfl, ?_, ?_⟩
            · obtain ⟨hnb, _⟩ := checked_add_eq_some hca
              subst hnb
              simp [mint, h1, h0, hca, hcs]
            · simp [mint, h1, h0, hca, hcs]
          · exfalso; simp [mint, h1, h0, hca, hcs, Except.isOk, Except.toBool] at h

/-- Witness for the C2 amendment: a failing `burn` leaves the fresh ledger
unchanged, and on `c2Pre` the failing `mint` lands in the committed-credit
branch of the disjunction. -/
theorem ops_atomic_on_error_witness :
    (burn (new (0 : Fin 1)) 0 5).2 = new (0 : Fin 1) ∧
    ((mint c2Pre 0 1 1).2 = c2Pre ∨
      (checked_add c2Pre.total_supply 1 = none ∧
       (mint c2Pre 0 1 1).2 =
         { c2Pre with balances := Function.update c2Pre.balances 1 (c2Pre.balances 1 + 1) } ∧
       (mint c2Pre 0 1 1).2.total_supply = c2Pre.total_supply)) :=
  ⟨(ops_atomic_on_error (new (0 : Fin 1))).1 0 5 rfl,
   (ops_atomic_on_error c2Pre).2.2.2.2.2.2.2.2 0 1 1 rfl⟩

/-- C4: when `batch_transfer` passes its up-front checks but the credit loop
fails at some recipient — equal to the caller (`TransferToSelf`) or with an
overflowing credit (`InvalidAmount`) — the returned state is exactly the
intermediate state in which every earlier recipient keeps its credit, and
the caller's balance is untouched. -/
theorem batch_transfer_partial_commit (s s1 : TokenBalance A) (c bad : A) (amt : Nat)
    (pre rest : List (A × Nat))
    (hbal : ¬ s.balances c < batchTotal (pre ++ (bad, amt) :: rest))
    (hz : (pre ++ (bad, amt) :: rest).any (fun r => r.2 = 0) = false)
    (hpre : creditLoop s c pre = (Except.ok (), s1))
    (hfail : c = bad ∨ checked_add (s1.balances bad) amt = none) :
    batch_transfer s c (pre ++ (bad, amt) :: rest) =
      ((if c = bad then Except.error TokenError.TransferToSelf
        else Except.error TokenError.InvalidAmount), s1) ∧
    s1.balances c = s.balances c := by
  refine ⟨?_, creditLoop_ok_balc hpre⟩
  unfold batch_transfer
  rw [if_neg hbal]
  simp only [hz, Bool.false_eq_true, if_false]
  rw [creditLoop_append _ hpre]
  rcases hfail with hself | hov
  · simp [creditLoop, hself]
  · by_cases hcb : c = bad
    · simp [creditLoop, hcb]
    · simp [creditLoop, hcb, hov]

/-- Two-account ledger for the C4 witness: the caller `0` holds 15 tokens. -/
def sC4 : TokenBalance (Fin 2) := (mint (new 0) 0 0 15).2

/-- State after the successful prefix of the failing batch: recipient `1`
already credited 10, caller still holding 15. -/
def sC4mid : TokenBalance (Fin 2) := (creditLoop sC4 0 [(1, 10)]).2

/-- Witness for C4: `batch_transfer [(1,10),(0,5)]` by caller `0` with
balance 15 passes the up-front checks, credits `1` with 10, then fails with
`TransferToSelf` on the caller's own entry, leaving the leaked credit in
place and the caller undebited. -/
theorem batch_transfer_partial_commit_witness :
    (¬ sC4.balances 0 < batchTotal [((1 : Fin 2), 10), (0, 5)]) ∧
    (([((1 : Fin 2), 10), (0, 5)] : List (Fin 2 × Nat)).any (fun r => r.2 = 0) = false) ∧
    (batch_transfer sC4 0 [(1, 10), (0, 5)] =
      ((if (0 : Fin 2) = 0 then Except.error TokenError.TransferToSelf
        else Except.error TokenError.InvalidAmount), sC4mid) ∧
     sC4mid.balances 0 = sC4.balances 0) ∧
    sC4mid.balances 1 = 10 :=
  ⟨by decide, by decide,
   batch_transfer_partial_commit sC4 sC4mid 0 0 5 [(1, 10)] [] (by decide) (by decide) rfl
     (Or.inl rfl),
   by decide⟩

/-- C6: the pause flag and the blacklist gate only direct `transfer`:
running `mint`, `burn`, `transfer_from`, or `batch_transfer` from the same
state with the pause flag and the blacklist replaced by arbitrary values
yields the same result and the same state effect (the replaced gate fields
are carried through untouched), for every state and all arguments. -/
theorem gates_only_affect_transfer (s : TokenBalance A) (p : Bool) (bl : A → Bool)
    (c f t : A) (amt : Nat) (l : List (A × Nat)) :
    mint { s with paused := p, blacklisted := bl } c t amt =
      ((mint s c t amt).1, { (mint s c t amt).2 with paused := p, blacklisted := bl }) ∧
    burn { s with paused := p, blacklisted := bl } c amt =
      ((burn s c amt).1, { (burn s c amt).2 with paused := p, blacklisted := bl }) ∧
    transfer_from { s with paused := p, blacklisted := bl } c f t amt =
      ((transfer_from s c f t amt).1,
       { (transfer_from s c f t amt).2 with paused := p, blacklisted := bl }) ∧
    batch_transfer { s with paused := p, blacklisted := bl } c l =
      ((batch_transfer s c l).1,
       { (batch_transfer s c l).2 with paused := p, blacklisted := bl }) := by
  refine ⟨?_, ?_, ?_, ?_⟩
  · by_cases h1 : c ≠ s.owner
    · simp [mint, h1]
    · by_cases h0 : amt = 0
      · simp [mint, h1, h0]
      · rcases hca : checked_add (s.balances t) amt with _ | nb
        · simp [mint, h1, h0, hca]
        · rcases hcs : checked_add s.total_supply amt with _ | ns <;>
            simp [mint, h1, h0, hca, hcs]
  · by_cases h0 : amt = 0
    · simp [burn, h0]
    · by_cases hlt : s.balances c < amt <;> simp [burn, h0, hlt]
  · by_cases h0 : amt = 0
    · simp [transfer_from, h0]
    · by_cases ha : s.allowances (f, c) < amt
      · simp [transfer_from, h0, ha]
      · by_cases hb : s.balances f < amt
        · simp [transfer_from, h0, ha, hb]
        · rcases hca : checked_add (s.balances t) amt with _ | nb <;>
            simp [transfer_from, h0, ha, hb, hca]
  · by_cases hlt : s.balances c < batchTotal l
    · simp [batch_transfer, hlt]
    · by_cases hz : l.any (fun r => r.2 = 0) = true
      · simp [batch_transfer, hlt, hz]
      · rcases hcl : creditLoop s c l with ⟨r, st⟩
        have hg := creditLoop_gates (c := c) p bl (l := l) (s := s)
        rw [hcl] at hg
        cases r
        · simp [batch_transfer, hlt, hz, hg, hcl]
        · simp [batch_transfer, hlt, hz, hg, hcl]

/-- C5: a successful self-targeted `transfer_from` (`from == to`, nonzero
amount within both the allowance and the balance, no credit overflow)
returns ok and *increases* `from`'s balance by the amount: the credit insert,
computed from the balance read before the debit insert, overwrites the
debit.  The allowance is decremented and `total_supply` is unchanged, so the
sum of balances grows with no matching supply change. -/
theorem transfer_from_self_inflates (s : TokenBalance A) (c a : A) (amount : Nat)
    (h0 : amount ≠ 0) (hallow : amount ≤ s.allowances (a, c))
    (hbal : amount ≤ s.balances a) (hov : s.balances a + amount < U128MOD) :
    (transfer_from s c a a amount).1 = Except.ok () ∧
    (transfer_from s c a a amount).2.balances a = s.balances a + amount ∧
    (transfer_from s c a a amount).2.allowances (a, c) = s.allowances (a, c) - amount ∧
    (transfer_from s c a a amount).2.total_supply = s.total_supply := by
  have h1 : ¬ s.allowances (a, c) < amount := Nat.not_lt.mpr hallow
  have h2 : ¬ s.balances a < amount := Nat.not_lt.mpr hbal
  simp [transfer_from, checked_add, h0, h1, h2, hov]

/-- Witness for C5: spender `2` moves 30 from `1` to `1` on `sApprove50`;
account `1` ends with balance 130 out of a supply of 100. -/
theorem transfer_from_self_inflates_witness :
    (30 : Nat) ≠ 0 ∧ (30 : Nat) ≤ sApprove50.allowances (1, 2) ∧
    (30 : Nat) ≤ sApprove50.balances 1 ∧ sApprove50.balances 1 + 30 < U128MOD ∧
    ((transfer_from sApprove50 2 1 1 30).1 = Except.ok () ∧
     (transfer_from sApprove50 2 1 1 30).2.balances 1 = sApprove50.balances 1 + 30 ∧
     (transfer_from sApprove50 2 1 1 30).2.allowances (1, 2) =
       sApprove50.allowances (1, 2) - 30 ∧
     (transfer_from sApprove50 2 1 1 30).2.total_supply = sApprove50.total_supply) :=
  ⟨by decide, by decide, by decide, by decide,
   transfer_from_self_inflates sApprove50 2 1 30 (by decide) (by decide) (by decide) (by decide)⟩

end TokenBalance
